import Mathlib

/-!
Verification of `cpinutil.py` (CPIN-file generator for constant-pH MD).

The script is Python 2; it is embedded shallowly below.  Strings are Lean
`String`s, Python lists are Lean `List`s, Python `int`/`float` command-line
values become `Int` / exact decimals (`Deci`; all pKa values and bounds the
script compares are short decimals, so this agrees with float comparison),
and every fallible Python operation (indexing, `int()`/`float()` conversion,
the reference-table lookup) returns an `Option`/`Except`.

Python-2 semantics that matter and are modelled exactly:
  * `a in b` on strings is substring containment; with a non-string left
    operand (a float) it raises `TypeError`.
  * negative list indices count from the end; an index that is still out of
    range raises `IndexError`.
  * `sys.exit()` with no argument terminates the process with exit status 0;
    an uncaught exception terminates it abnormally (status 1).
  * the `for x in range(...)` loop variable is reset at each iteration, so the
    inner `x += 1` scans of the argument parser do not advance the loop: value
    words are re-visited (and re-interpreted as options if they collide with
    an option token).

The external collaborators (`cpin_utilities.getallresinfo`, `getbondiset`,
`fileexists`, `cpin_data.getData`, `printusage`) are not part of the core
(spec section 1/6 treats them as external interfaces); they are parameters of
the model, collected in `Env`.
-/

/-- Boolean "is a prefix of" on character lists. -/
def listPre : List Char → List Char → Bool
  | [], _ => true
  | _ :: _, [] => false
  | x :: xs, y :: ys => x = y && listPre xs ys

/-- Boolean "is an infix of" on character lists. -/
def listInf (a : List Char) : List Char → Bool
  | [] => a.isEmpty
  | b :: bs => listPre a (b :: bs) || listInf a bs

/-- Python `a in b` for strings: substring containment. -/
def inContains (a b : String) : Bool :=
  listInf a.data b.data

/-- Python list indexing `l[i]`: negative indices count from the end;
`none` models an uncaught `IndexError`. -/
def pyIdx {α : Type} (l : List α) (i : Int) : Option α :=
  if 0 ≤ i then l.get? i.toNat
  else if 0 ≤ i + l.length then l.get? (i + (l.length : Int)).toNat
  else none

/-- Split a character list at every occurrence of `c` (Python `str.split(c)`). -/
def splitOnChar (c : Char) : List Char → List (List Char)
  | [] => [[]]
  | a :: rest =>
    let r := splitOnChar c rest
    if a = c then [] :: r else (a :: r.headD []) :: r.tail

/-- Python `str.strip()`: drop leading and trailing whitespace. -/
def trimChars (cs : List Char) : List Char :=
  ((cs.dropWhile Char.isWhitespace).reverse.dropWhile Char.isWhitespace).reverse

/-- Python `str.split()` on a single-space-separated string (used only on the
constant tables, which are single-space separated). -/
def splitWS (s : String) : List String :=
  ((splitOnChar ' ' s.data).map String.mk).filter (fun p => p ≠ "")

/-- Python `str.startswith("-")`. -/
def startsDash (s : String) : Bool :=
  match s.data with
  | c :: _ => c = '-'
  | [] => false

/-- Python `s.startswith(p)`. -/
def strStarts (s p : String) : Bool :=
  listPre p.data s.data

/-- Parse a nonempty digit string to a natural number. -/
def digitsToNat (cs : List Char) : Option Nat :=
  if cs = [] then none
  else cs.foldl
    (fun acc c => acc.bind (fun n => if c.isDigit then some (10 * n + (c.toNat - 48)) else none))
    (some 0)

/-- Python `int(s)` on the decimal strings the script receives. -/
def pyInt (s : String) : Option Int :=
  if startsDash s then (digitsToNat (s.data.drop 1)).map (fun n => -(n : Int))
  else (digitsToNat s.data).map (fun n => (n : Int))

/-- An exact decimal number `num / 10 ^ exp`.  All float values the script
compares (the tabulated pKas and the `-minpKa`/`-maxpKa` bounds) are short
decimals, for which IEEE-double comparison agrees with exact-decimal
comparison, so this is a faithful model of the script's float ordering. -/
structure Deci where
  num : Int
  exp : Nat
deriving DecidableEq

/-- Comparison of exact decimals (cross-multiplied integer comparison). -/
def Deci.lt (a b : Deci) : Bool :=
  a.num * ((10 : Int) ^ b.exp) < b.num * ((10 : Int) ^ a.exp)

/-- Python `float(s)` on plain decimal strings (`"4.0"`, `"-100"`, `"8.55"`),
returned as an exact decimal. -/
def pyFloat (s : String) : Option Deci :=
  let sgn : Int := if startsDash s then -1 else 1
  let body := if startsDash s then s.data.drop 1 else s.data
  match splitOnChar '.' body with
  | [ip] => (digitsToNat ip).map (fun n => ⟨sgn * (n : Int), 0⟩)
  | [ip, fp] =>
    if ip = [] ∧ fp = [] then none
    else
      match (if ip = [] then some 0 else digitsToNat ip),
            (if fp = [] then some 0 else digitsToNat fp) with
      | some i, some f =>
        some ⟨sgn * ((i : Int) * (10 : Int) ^ fp.length + (f : Int)), fp.length⟩
      | _, _ => none
  | _ => none

/-- Remove every (left-to-right, non-overlapping) occurrence of `old` from
`cs`; fuel-driven so that it is structurally recursive (fuel `cs.length`
always suffices because each step consumes at least one character). -/
def removeAllSub : Nat → List Char → List Char → List Char
  | 0, _, _ => []
  | _, _, [] => []
  | fuel + 1, old, c :: rest =>
    if listPre old (c :: rest) ∧ old ≠ [] then
      removeAllSub fuel old ((c :: rest).drop old.length)
    else c :: removeAllSub fuel old rest

/-- Python 2 `string.replace(s, old, '')`: delete all occurrences of `old`. -/
def strReplace (s old : String) : String :=
  String.mk (removeAllSub s.data.length old.data s.data)

/-- `addOn` from cpinutil.py lines 11-18: if appending `toadd` would push the
line past 80 characters, the current line is printed (first component) and a
fresh continuation line `' ' + toadd` is started; otherwise the token is
appended.  Returns (lines printed now, new accumulated line). -/
def addOn (line toadd : String) : List String × String :=
  if line.length + toadd.length > 80 then ([line], " " ++ toadd)
  else ([], line ++ toadd)

/-- One `line = addOn(line, toadd)` step on an accumulator that also records
the lines printed so far. -/
def stepAcc (acc : List String × String) (t : String) : List String × String :=
  let r := addOn acc.2 t
  (acc.1 ++ r.1, r.2)

/-- All physical lines produced for one accumulating field: the `addOn` loop
followed by the final `print line`. -/
def emitLines (line : String) : List String → List String
  | [] => [line]
  | t :: ts =>
    let r := addOn line t
    r.1 ++ emitLines r.2 ts

/-- Concatenation of a token list (used only in theorem statements). -/
def joinToks : List String → String
  | [] => ""
  | t :: ts => t ++ joinToks ts

/-- Line 28: the built-in titratable residue names, as one string. -/
def titratable : String := "AS4 GL4 HIP TYR LYS CYS"

/-- Line 29: the tabulated reference pKas, as one string. -/
def exp_pkas : String := "4.0 4.4 6.5 9.6 10.4 8.55"

/-- Lines 200-205: the reference pKas parsed with `float()`. -/
def pkaVals : List Deci := (splitWS exp_pkas).filterMap pyFloat

/-- A reference state table: one entry per protonation state, each state a row
`[energy, proton_count, charge, charge, ...]` (entries kept as their printed
string forms, since the script only measures row lengths and re-prints the
entries verbatim). -/
abbrev StateTable := List (List String)

/-- The external collaborators of the core (spec sections 1 and 6): topology
residue labels and pointers, the radius-set label, prmtop-file existence, and
the reference-table lookup `cpin_data.getData(resname, igb)` (`none` models
its `-1` not-found return). -/
structure Env where
  residues : List String
  pointers : List String
  radius : String
  fileOK : Bool
  getData : String → Int → Option StateTable

/-- The script state after command-line conversion (lines 181-196): `igb`,
the pKa bounds, the (possibly edited) titratable-name string and the number /
state lists.  `system_name` is omitted: the source assigns it at line 60 and
never reads it again. -/
structure Cfg where
  igb : Int
  minpKa : Deci
  maxpKa : Deci
  titrate_residues : String
  resnums : List Int
  notresnums : List Int
  residue_states : List Int
deriving DecidableEq

/-- How the process ends.  `sys.exit()` (no argument) gives exit status 0 both
for `normal` completion and `earlyExit`; an uncaught exception (`crashed`)
gives status 1; `usage` is the external `printusage()` path whose exit status
is outside the modelled core. -/
inductive Fate where
  | normal
  | earlyExit
  | usage
  | crashed (exc : String)
deriving DecidableEq

/-- Process exit status for each fate (unknown for the external usage path). -/
def exitStatus : Fate → Option Nat
  | .normal => some 0
  | .earlyExit => some 0
  | .crashed _ => some 1
  | .usage => none

/-- Observable result of a run: the stdout lines, the stderr lines, and how
the process ended. -/
structure RunOut where
  stdout : List String
  stderr : List String
  term : Fate
deriving DecidableEq

/-- Failures possible before any stdout output (lines 198-281). -/
inductive PrepErr where
  | typeErr
  | tooBig
  | notTit (n : Int) (nm : String)
  | idxCrash
  | empty
  | stateCount (ns nr : Nat)
deriving DecidableEq

/-- Lines 203-209: walk the tabulated pKas; for the first one outside
`[minpKa, maxpKa]` the script evaluates `titrate_pka_holder[x] in
titrate_residues` with a float left operand, which raises `TypeError`. -/
def pkaGo (mn mx : Deci) (tr : String) : List Deci → Except PrepErr String
  | [] => .ok tr
  | v :: rest => if Deci.lt v mn || Deci.lt mx v then .error .typeErr else pkaGo mn mx tr rest

/-- The pKa-range filter step (lines 198-209). -/
def pKaFilterRun (mn mx : Deci) (tr : String) : Except PrepErr String :=
  pkaGo mn mx tr pkaVals

/-- Lines 219-231: explicit `-resnum` selection.  Only `n > len(residues)` is
checked; the residue name is fetched with Python indexing (negative indices
wrap) and membership is the substring test `name in titrate_residues`. -/
def selectResnums (residues : List String) (tr : String) : List Int → Except PrepErr (List Int)
  | [] => .ok []
  | n :: rest =>
    if n > (residues.length : Int) then .error .tooBig
    else
      match pyIdx residues (n - 1) with
      | none => .error .idxCrash
      | some nm =>
        if inContains nm tr then (selectResnums residues tr rest).map (fun l => n :: l)
        else .error (.notTit n nm)

/-- Lines 235-238: scan the topology, selecting every residue whose name is a
substring of the titratable-name string; `i` is the 0-based scan position. -/
def scanFrom (i : Nat) (tr : String) : List String → List Int
  | [] => []
  | nm :: rest =>
    (if inContains nm tr then [((i : Int) + 1)] else []) ++ scanFrom (i + 1) tr rest

/-- The whole-topology scan (default selection path). -/
def selectScan (residues : List String) (tr : String) : List Int :=
  scanFrom 0 tr residues

/-- Lines 248-252: for each `-notresnum` value remove the first matching
entry from the selection. -/
def notresnumFilter (nums notres : List Int) : List Int :=
  notres.foldl (fun acc n => acc.erase n) nums

/-- Lines 219-252: number selection, the emptiness check (which the source
performs BEFORE the `-notresnum` filter), then the filter. -/
def selStage (residues : List String) (tr : String) (resnums notres : List Int) :
    Except PrepErr (List Int) := do
  let nums0 ← if resnums = [] then Except.ok (selectScan residues tr)
              else selectResnums residues tr resnums
  if nums0 = [] then Except.error PrepErr.empty
  else Except.ok (notresnumFilter nums0 notres)

/-- Lines 258-269: deduplicate names preserving first-occurrence order. -/
def dedupFirst (l : List String) : List String :=
  l.foldl (fun acc nm => if acc.contains nm then acc else acc ++ [nm]) []

/-- Everything before the first stdout write (lines 198-281): pKa filter,
selection, per-occurrence names, deduplicated names, and the initial-state
list (length-checked, or zero-filled). -/
def prep (env : Env) (cfg : Cfg) :
    Except PrepErr (List Int × List String × List String × List Int) := do
  let tr ← pKaFilterRun cfg.minpKa cfg.maxpKa cfg.titrate_residues
  let nums ← selStage env.residues tr cfg.resnums cfg.notresnums
  let occNames ←
    match nums.mapM (fun n => pyIdx env.residues (n - 1)) with
    | none => Except.error PrepErr.idxCrash
    | some l => Except.ok l
  let dn := dedupFirst occNames
  let states ←
    if cfg.residue_states = [] then Except.ok (List.replicate nums.length 0)
    else if cfg.residue_states.length ≠ nums.length then
      Except.error (PrepErr.stateCount cfg.residue_states.length nums.length)
    else Except.ok cfg.residue_states
  Except.ok (nums, occNames, dn, states)

/-- Error-stream text for each pre-output failure (the crash cases stand for
an uncaught-exception traceback). -/
def prepMsg : PrepErr → String
  | .typeErr => "TypeError: \x27in <string>\x27 requires string as left operand, not float"
  | .tooBig => "Error: You specified a residue greater than the number of residues in the topology file"
  | .notTit n nm => "Error: Residue " ++ toString n ++ " is a " ++ nm ++ ". This is not in the list of titratable residues!"
  | .idxCrash => "IndexError: list index out of range"
  | .empty => "Error: No titratable residues conform to your criteria!"
  | .stateCount a b => "Error: You specified " ++ toString a ++ " states for " ++ toString b ++ " titrated residues!"

/-- Fate of each pre-output failure: the two exception cases crash (abnormal
exit), the rest are `sys.exit()`. -/
def prepFate : PrepErr → Fate
  | .typeErr => .crashed "TypeError"
  | .idxCrash => .crashed "IndexError"
  | _ => .earlyExit

/-- Lines 307-310: the CHRGDAT tokens of one state table (charges start at
row entry 2). -/
def chrgTokens (d : StateTable) : List String :=
  d.flatMap (fun row => (row.drop 2).map (fun c => c ++ ","))

/-- Lines 298-312: the CHRGDAT loop.  Walks the per-name lookup results in
order; a `-1` (`none`) lookup aborts (error carries the lines already
printed); on success returns the field lines and the unwrapped tables. -/
def chrgdatGo (acc : List String × String) :
    List (Option StateTable) → Except (List String) (List String × List StateTable)
  | [] => .ok (acc.1 ++ [acc.2], [])
  | none :: _ => .error acc.1
  | some d :: rest =>
    (chrgdatGo (foldStep acc (chrgTokens d)) rest).map (fun r => (r.1, d :: r.2))
where
  foldStep (acc : List String × String) (toks : List String) : List String × String :=
    toks.foldl stepAcc acc

/-- Tokens whose construction can raise (`.error` = uncaught exception). -/
def protToks (ds : List StateTable) : List (Except String String) :=
  ds.flatMap (fun d => d.map (fun row =>
    match row.get? 1 with
    | some v => .ok (v ++ ",")
    | none => .error "IndexError"))

/-- Lines 331-335: one RESNAME token per selected occurrence. -/
def resnameTokens (occ : List (Int × String)) : List String :=
  occ.map (fun p => "\x27Residue: " ++ p.2 ++ " " ++ toString p.1 ++ "\x27,")

/-- Lines 343-351: the RESSTATE loop.  For each occurrence the state index is
validated against the matching deduplicated name's state count BEFORE its
token is appended; a violation exits (error carries the lines already
printed). -/
def resstateGo (dn : List String) (ds : List StateTable) (acc : List String × String) :
    List (Int × String) → Except (List String) (List String)
  | [] => .ok (acc.1 ++ [acc.2])
  | (st, nm) :: rest =>
    match (dn.zip ds).find? (fun q => q.1 == nm) with
    | some q =>
      if st < 0 ∨ (q.2.length : Int) ≤ st then .error acc.1
      else resstateGo dn ds (stepAcc acc (toString st ++ ",")) rest
    | none => resstateGo dn ds (stepAcc acc (toString st ++ ",")) rest

/-- Lines 366-375: the offset loop.  Walk the deduplicated names; accumulate
`(num_atoms * num_states, num_states)` for every non-matching name, stop at
the first match with `(first_charge, first_state, num_atoms, num_states)`.
`none` models the uncaught `IndexError`/`NameError` when a row is missing or
no name matches. -/
def offsetLoop (target : String) : List String → List StateTable → Option (Int × Int × Int × Nat)
  | [], _ => none
  | _ :: _, [] => none
  | n :: ns, d :: rest =>
    if target == n then
      d.head?.map (fun row => (0, 0, (row.length : Int) - 2, d.length))
    else
      match d.head? with
      | none => none
      | some row =>
        (offsetLoop target ns rest).map
          (fun q => (q.1 + ((row.length : Int) - 2) * (d.length : Int), q.2.1 + (d.length : Int), q.2.2))

/-- Lines 357-386: the STATEINF tokens of all occurrences in order (the
FIRST_ATOM token is appended before the offsets are computed, so a failing
offset computation still leaves it emitted). -/
def stateinfToks (pointers : List String) (dn : List String) (ds : List StateTable)
    (occ : List (Int × String)) : List (Except String String) :=
  occ.enum.flatMap (fun p =>
    let x := p.1
    let num := p.2.1
    let nm := p.2.2
    match pyIdx pointers (num - 1) with
    | none => [.error "IndexError"]
    | some h =>
      .ok ("STATEINF(" ++ toString x ++ ")%FIRST_ATOM=" ++ h ++ ", ") ::
      match offsetLoop nm dn ds with
      | none => [.error "IndexError"]
      | some q =>
        [ .ok ("STATEINF(" ++ toString x ++ ")%FIRST_CHARGE=" ++ toString q.1 ++ ", "),
          .ok ("STATEINF(" ++ toString x ++ ")%FIRST_STATE=" ++ toString q.2.1 ++ ", "),
          .ok ("STATEINF(" ++ toString x ++ ")%NUM_ATOMS=" ++ toString q.2.2.1 ++ ", "),
          .ok ("STATEINF(" ++ toString x ++ ")%NUM_STATES=" ++ toString q.2.2.2 ++ ", ") ])

/-- Lines 390-397: the STATENE tokens (state energies, row entry 0). -/
def stateneToks (ds : List StateTable) : List (Except String String) :=
  ds.flatMap (fun d => d.map (fun row =>
    match row.head? with
    | some e => .ok (e ++ ",")
    | none => .error "IndexError"))

/-- Generic accumulating-field loop over possibly-failing tokens; a failure
aborts with the exception name and the lines already printed. -/
def emitExcGo (acc : List String × String) :
    List (Except String String) → Except (String × List String) (List String)
  | [] => .ok (acc.1 ++ [acc.2])
  | .error m :: _ => .error (m, acc.1)
  | .ok t :: rest => emitExcGo (stepAcc acc t) rest

/-- Lines 286-409: everything written after the `&CNSTPH` header, in source
order: CHRGDAT, PROTCNT, RESNAME, RESSTATE, STATEINF, STATENE, TRESCNT, the
terminator, and the final stderr message.  Returns (stdout lines after the
header, stderr lines, fate). -/
def emitPhase (env : Env) (cfg : Cfg) (nums : List Int) (occNames dn : List String)
    (states : List Int) : List String × List String × Fate :=
  let dsOpt := dn.map (fun nm => env.getData nm cfg.igb)
  match chrgdatGo ([], " CHRGDAT=") dsOpt with
  | .error ls => (ls, ["Error: Couldn\x27t get data from cpin_data.py!"], .earlyExit)
  | .ok (ls1, ds) =>
    match emitExcGo ([], " PROTCNT=") (protToks ds) with
    | .error (m, ls2) => (ls1 ++ ls2, [], .crashed m)
    | .ok ls2 =>
      let ls3 := emitLines " RESNAME=\x27System: Unknown\x27," (resnameTokens (nums.zip occNames))
      match resstateGo dn ds ([], " RESSTATE=") (states.zip occNames) with
      | .error ls4 =>
        (ls1 ++ ls2 ++ ls3 ++ ls4,
         ["Error: Residue states must range from 0 to num_states - 1 for each residue!"],
         .earlyExit)
      | .ok ls4 =>
        match emitExcGo ([], " ") (stateinfToks env.pointers dn ds (nums.zip occNames)) with
        | .error (m, ls5) => (ls1 ++ ls2 ++ ls3 ++ ls4 ++ ls5, [], .crashed m)
        | .ok ls5 =>
          match emitExcGo ([], " STATENE=") (stateneToks ds) with
          | .error (m, ls6) => (ls1 ++ ls2 ++ ls3 ++ ls4 ++ ls5 ++ ls6, [], .crashed m)
          | .ok ls6 =>
            (ls1 ++ ls2 ++ ls3 ++ ls4 ++ ls5 ++ ls6 ++
               [" TRESCNT=" ++ toString nums.length ++ ",", "/"],
             ["CPin created!"],
             .normal)

/-- The core transform (cpinutil.py lines 198-409, after the prmtop reads and
command-line conversions): validation with no stdout output, then the
`&CNSTPH` record.  The header is printed before the reference-table lookups
and state-range checks run. -/
def runCore (env : Env) (cfg : Cfg) : RunOut :=
  match prep env cfg with
  | .error e => { stdout := [], stderr := [prepMsg e], term := prepFate e }
  | .ok (nums, occNames, dn, states) =>
    let r := emitPhase env cfg nums occNames dn states
    { stdout := "&CNSTPH" :: r.1, stderr := r.2.1, term := r.2.2 }

/-- The script state built by the argument loop (lines 31-49 defaults).
`minpKa` and `maxpKa` start as the numerals -100 and 100, stored here in the
string form that `float()` later receives. -/
structure ParseSt where
  prmtop : String
  igb : String
  system_name : String
  minpKa : String
  maxpKa : String
  ignore_warn : Bool
  titrate_residues : String
  resnums : List String
  notresnums : List String
  residue_states : List String
  resname_spec : Bool
  nresname_spec : Bool
  resnum_spec : Bool
  nresnum_spec : Bool
deriving DecidableEq

/-- Lines 31-49: the default state. -/
def initSt : ParseSt :=
  { prmtop := "prmtop", igb := " ", system_name := "Unknown",
    minpKa := "-100", maxpKa := "100", ignore_warn := false,
    titrate_residues := titratable, resnums := [], notresnums := [],
    residue_states := [], resname_spec := false, nresname_spec := false,
    resnum_spec := false, nresnum_spec := false }

/-- Argument-loop failures: a mutual-exclusion `sys.exit()` (with its stderr
message) or the caught `IndexError` of a flag missing its value. -/
inductive PErr where
  | exclusion (msg : String)
  | idxErr
deriving DecidableEq

/-- The option tokens the loop recognises. -/
def flagToks : List String :=
  ["-p", "-igb", "-system", "-minpKa", "-maxpKa", "--ignore-warnings",
   "-resname", "-notresname", "-resnum", "-notresnum", "-states"]

/-- Comma-split, strip and drop empty pieces of one word (lines 78-81 etc.). -/
def piecesOf (t : String) : List String :=
  ((splitOnChar ',' t.data).map (fun cs => String.mk (trimChars cs))).filter (fun q => q ≠ "")

/-- The inner `while x < len(sys.argv) and not sys.argv[x].startswith("-")`
scan, collecting pieces; fuelled (fuel `argv.length` always suffices). -/
def collectGo (argv : List String) : Nat → Nat → List String
  | 0, _ => []
  | fuel + 1, i =>
    match argv.get? i with
    | none => []
    | some t => if startsDash t then [] else piecesOf t ++ collectGo argv fuel (i + 1)

/-- All value pieces following position `i - 1`'s flag. -/
def collectPieces (argv : List String) (i : Nat) : List String :=
  collectGo argv argv.length i

/-- One iteration of the `for x in range(1, len(sys.argv))` loop (lines
54-147) on the word `tok = argv[x]`.  Because Python resets the loop variable
each iteration, value words are re-visited: a word matching no option token
falls through to the final no-op case. -/
def stepTok (argv : List String) (x : Nat) (tok : String) (s : ParseSt) :
    Except PErr ParseSt :=
  if tok = "-p" then
    match argv.get? (x + 1) with
    | none => .error .idxErr
    | some v => .ok { s with prmtop := v }
  else if tok = "-igb" then
    match argv.get? (x + 1) with
    | none => .error .idxErr
    | some v => .ok { s with igb := v }
  else if tok = "-system" then
    match argv.get? (x + 1) with
    | none => .error .idxErr
    | some v => .ok { s with system_name := v }
  else if tok = "-minpKa" then
    match argv.get? (x + 1) with
    | none => .error .idxErr
    | some v => .ok { s with minpKa := v }
  else if tok = "-maxpKa" then
    match argv.get? (x + 1) with
    | none => .error .idxErr
    | some v => .ok { s with maxpKa := v }
  else if tok = "--ignore-warnings" then .ok { s with ignore_warn := true }
  else if tok = "-resname" then
    if s.nresname_spec then
      .error (.exclusion "Error: You cannot specify -notresname and -resname simultaneously!")
    else
      .ok { s with
            resname_spec := true,
            titrate_residues :=
              (collectPieces argv (x + 1)).foldl (fun a q => a ++ q ++ " ") "" }
  else if tok = "-notresname" then
    if s.resname_spec then
      .error (.exclusion "Error: You cannot specify -notresname and -resname simultaneously!")
    else
      .ok { s with
            nresname_spec := true,
            titrate_residues :=
              (collectPieces argv (x + 1)).foldl (fun a q => strReplace a q)
                s.titrate_residues }
  else if tok = "-resnum" then
    if s.nresnum_spec then
      .error (.exclusion "Error: You cannot specify -notresnum and -resnum simultaneously!")
    else .ok { s with resnum_spec := true, resnums := s.resnums ++ collectPieces argv (x + 1) }
  else if tok = "-notresnum" then
    if s.resnum_spec then
      .error (.exclusion "Error: You cannot specify -notresnum and -resnum simultaneously!")
    else .ok { s with nresnum_spec := true, notresnums := s.notresnums ++ collectPieces argv (x + 1) }
  else if tok = "-states" then
    .ok { s with residue_states := s.residue_states ++ collectPieces argv (x + 1) }
  else .ok s

/-- Error propagation of one loop iteration: a failing step aborts the loop,
a successful one continues with the new state. -/
def parseCont (next : ParseSt → Except PErr ParseSt) : Except PErr ParseSt → Except PErr ParseSt
  | .error e => .error e
  | .ok s2 => next s2

/-- The argument loop, one word per iteration from index `x` on; fuelled
(fuel `argv.length` always suffices, the loop body never moves `x` for the
next iteration). -/
def parseGo (argv : List String) : Nat → Nat → ParseSt → Except PErr ParseSt
  | 0, _, s => .ok s
  | fuel + 1, x, s =>
    match argv.get? x with
    | none => .ok s
    | some tok => parseCont (parseGo argv fuel (x + 1)) (stepTok argv x tok s)

/-- Lines 152-196 and onward: prmtop existence, igb defaulting (with its
warning), the radius-set check, the residue-record check, the `int()` /
`float()` conversions, then the core.  On a `ValueError` the handler calls
the undefined name `utils.printusage()`, so that path crashes with
`NameError`. -/
def runRest (env : Env) (st : ParseSt) : RunOut :=
  if ¬ env.fileOK then
    { stdout := [], stderr := ["Error: prmtop file cannot be opened!"], term := .earlyExit }
  else
    let warns : List String :=
      if st.igb = " " ∧ ¬ st.ignore_warn then
        ["Warning: igb value not specified. igb = 5 used as default. Be sure to use this value for your constant pH simulations!"]
      else []
    let igbStr := if st.igb = " " then "5" else st.igb
    if ¬ st.ignore_warn ∧ env.radius ≠ "H(N)-modified Bondi radii (mbondi2)" then
      { stdout := [],
        stderr := warns ++ ["Error: mbondi2 radius set should be used for constant pH simulations. All reference energies were calculated using these radii! Set --ignore-warnings to ignore this warning."],
        term := .earlyExit }
    else if env.residues = [] ∨ env.pointers = [] then
      { stdout := [],
        stderr := warns ++ ["Error: Could not find residue labels or pointers in " ++ st.prmtop ++ "! Check your prmtop file to make sure it is valid."],
        term := .earlyExit }
    else
      match st.resnums.mapM pyInt, st.notresnums.mapM pyInt,
            st.residue_states.mapM pyInt, pyInt igbStr,
            pyFloat st.maxpKa, pyFloat st.minpKa with
      | some rn, some nrn, some rs, some igbI, some mx, some mn =>
        let r := runCore env
          { igb := igbI, minpKa := mn, maxpKa := mx,
            titrate_residues := st.titrate_residues,
            resnums := rn, notresnums := nrn, residue_states := rs }
        { r with stderr := warns ++ r.stderr }
      | _, _, _, _, _, _ =>
        { stdout := [],
          stderr := warns ++ ["Error: Make sure you have the right data types for the right arguments!"],
          term := .crashed "NameError" }

/-- The whole script on a `sys.argv` list (program name at index 0): the
usage checks of lines 21-25, the argument loop, then `runRest`. -/
def runFromArgv (env : Env) (argv : List String) : RunOut :=
  if argv.length < 3 then { stdout := [], stderr := [], term := .usage }
  else if strStarts (argv.getD 1 "") "-h" || strStarts (argv.getD 1 "") "--h" then
    { stdout := [], stderr := [], term := .usage }
  else
    match parseGo argv argv.length 1 initSt with
    | .error .idxErr =>
      { stdout := [], stderr := ["Error: Command line error!"], term := .usage }
    | .error (.exclusion m) => { stdout := [], stderr := [m], term := .earlyExit }
    | .ok st => runRest env st

/-- A two-state reference table for AS4 (two atoms per state). -/
def dataAS4 : StateTable :=
  [["0.0", "0", "-0.8", "0.1"], ["21.4", "1", "-0.5", "0.3"]]

/-- A two-state reference table for TYR (two atoms per state). -/
def dataTYR : StateTable :=
  [["0.0", "1", "0.2", "0.4"], ["-65.1", "0", "0.1", "0.0"]]

/-- A reference table that resolves AS4 and TYR and nothing else. -/
def getDataFn : String → Int → Option StateTable := fun nm _ =>
  if nm = "AS4" then some dataAS4
  else if nm = "TYR" then some dataTYR
  else none

/-- Scenario-A topology: residues `["ALA", "GLU", "AS4", "TYR"]`. -/
def env8 : Env :=
  { residues := ["ALA", "GLU", "AS4", "TYR"], pointers := ["1", "11", "23", "35"],
    radius := "H(N)-modified Bondi radii (mbondi2)", fileOK := true, getData := getDataFn }

/-- Default criteria after conversion: igb 5, default pKa bounds, default
name set, no explicit numbers or states. -/
def cfg8 : Cfg :=
  { igb := 5, minpKa := ⟨-100, 0⟩, maxpKa := ⟨100, 0⟩, titrate_residues := titratable,
    resnums := [], notresnums := [], residue_states := [] }

/-- A topology whose only residue is titratable but whose reference table
resolves nothing (every `getData` lookup fails). -/
def envLup : Env :=
  { residues := ["AS4"], pointers := ["1"],
    radius := "H(N)-modified Bondi radii (mbondi2)", fileOK := true,
    getData := fun _ _ => none }

/-- A topology with the single titratable residue TYR. -/
def envTyr : Env :=
  { residues := ["TYR"], pointers := ["1"],
    radius := "H(N)-modified Bondi radii (mbondi2)", fileOK := true, getData := getDataFn }

/-- A token of exactly 80 characters. -/
def t80 : String := String.mk (List.replicate 80 'a')

/-- Two parse states that agree on everything except (possibly) the
`system_name` field — the one variable the script writes at line 60 and never
reads again. -/
def sameCore (a b : ParseSt) : Prop :=
  ∃ w, b = { a with system_name := w }

/-- Relation between the outcomes of the argument loop on two command lines:
identical failures, or success states that agree except on `system_name`. -/
def RelE : Except PErr ParseSt → Except PErr ParseSt → Prop
  | .error e1, .error e2 => e1 = e2
  | .ok a, .ok b => sameCore a b
  | _, _ => False

/-- Claim C1 (code_bug evidence): with pKa_range [5.0, 11.0] the pKa filter
does not drop AS4/GL4 from the default set; at the first out-of-range pKa
(AS4, 4.0 < 5.0) the script evaluates `4.0 in titrate_residues` with a float
left operand and the run dies with an uncaught `TypeError`, before any
selection or output.  This holds for every environment. -/
theorem c1_pka_filter_typeerror (env : Env) :
    runCore env
      { igb := 5, minpKa := ⟨5, 0⟩, maxpKa := ⟨11, 0⟩, titrate_residues := titratable,
        resnums := [], notresnums := [], residue_states := [] } =
      { stdout := [],
        stderr := ["TypeError: \x27in <string>\x27 requires string as left operand, not float"],
        term := .crashed "TypeError" } :=
  rfl

/-- Claim C2 (counterexample): a run that fails (reference-table lookup error
for the selected name AS4) after emitting output: the `&CNSTPH` header is
already on stdout, so a partial record IS produced on a failing run. -/
theorem c2_partial_output_cex :
    (runCore envLup cfg8).term = .earlyExit ∧ (runCore envLup cfg8).stdout ≠ [] := by
  constructor
  · rfl
  · decide

/-- Claim C2 (amended): failures detected before emission leave stdout empty,
but lookup and state-range failures happen mid-emission: every run's stdout
is either empty or starts with the `&CNSTPH` header; the concrete lookup
failure leaves exactly the header behind, and the concrete state-range
failure (state 5 for the two-state TYR) leaves the header plus the already
finished CHRGDAT, PROTCNT and RESNAME fields behind. -/
theorem c2_output_structure :
    (∀ env cfg, (runCore env cfg).stdout = [] ∨ (runCore env cfg).stdout.headD "" = "&CNSTPH")
    ∧ (runCore envLup cfg8).stdout = ["&CNSTPH"]
    ∧ (runCore envLup cfg8).term = .earlyExit
    ∧ (runCore envTyr { cfg8 with residue_states := [5] }).stdout =
        ["&CNSTPH", " CHRGDAT=0.2,0.4,0.1,0.0,", " PROTCNT=1,0,",
         " RESNAME=\x27System: Unknown\x27,\x27Residue: TYR 1\x27,"]
    ∧ (runCore envTyr { cfg8 with residue_states := [5] }).term = .earlyExit := by
  refine ⟨fun env cfg => ?_, by decide, rfl, by decide, rfl⟩
  cases h : prep env cfg with
  | error e => left; simp [runCore, h]
  | ok q =>
    right
    obtain ⟨nums, occNames, dn, states⟩ := q
    simp [runCore, h]

/-- Claim C3 (counterexample): the include-number 0 is below the claimed valid
range yet is NOT rejected: Python indexing wraps `0 - 1 = -1` to the last
residue (TYR, titratable), and a selection is produced. -/
theorem c3_zero_resnum_cex :
    selectResnums ["TYR"] titratable [0] = .ok [0] := rfl

/-- Claim C3 (amended): the explicit include-number check verifies only the
upper bound `n ≤ topology length` (failing above it); a number `n ≤ 0` is not
rejected: the residue at Python index `n - 1` (counting from the end) is
fetched, and if it exists and its name matches, `n` is selected as given. -/
theorem c3_bounds_amended (residues : List String) (tr : String) (n : Int) (nm : String) :
    ((residues.length : Int) < n → selectResnums residues tr [n] = .error .tooBig)
    ∧ (n ≤ 0 → pyIdx residues (n - 1) = some nm → inContains nm tr = true →
        selectResnums residues tr [n] = .ok [n]) := by
  constructor
  · intro h
    simp only [selectResnums]
    rw [if_pos h]
  · intro h0 hidx hmem
    have hgt : ¬ n > (residues.length : Int) := by omega
    simp only [selectResnums, hidx, hgt, if_false, hmem, if_true]
    rfl

/-- Claim C3 (witness): instantiation at topology `["TYR"]` and number 0. -/
theorem c3_bounds_witness :
    (0 : Int) ≤ 0 ∧ pyIdx ["TYR"] (0 - 1) = some "TYR" ∧ inContains "TYR" titratable = true
    ∧ selectResnums ["TYR"] titratable [0] = .ok [0] :=
  ⟨le_refl 0, rfl, by decide,
   (c3_bounds_amended ["TYR"] titratable 0 "TYR").2 (le_refl 0) rfl (by decide)⟩

/-- Claim C4 (counterexample): with topology `["TYR"]` and exclude-number list
`[1]`, the `-notresnum` filter removes every selected residue, yet the run
does NOT fail with "no residues selected": it completes normally and emits a
record with `TRESCNT=0`. -/
theorem c4_excluded_all_cex :
    (runCore envTyr { cfg8 with notresnums := [1] }).term = .normal
    ∧ " TRESCNT=0," ∈ (runCore envTyr { cfg8 with notresnums := [1] }).stdout := by
  constructor
  · rfl
  · decide

/-- Claim C4 (amended): the emptiness check runs after name matching but
BEFORE the exclude-number filter: whenever the topology scan selects at least
one residue, the selection stage succeeds — even when the exclude list then
removes everything — returning the filtered (possibly empty) list with no
"no residues selected" error. -/
theorem c4_empty_check_order (residues : List String) (tr : String) (notres : List Int)
    (h : selectScan residues tr ≠ []) :
    selStage residues tr [] notres = .ok (notresnumFilter (selectScan residues tr) notres) := by
  have hdef : selStage residues tr [] notres =
      (if selectScan residues tr = [] then Except.error PrepErr.empty
       else Except.ok (notresnumFilter (selectScan residues tr) notres)) := rfl
  rw [hdef, if_neg h]

/-- Claim C4 (witness): topology `["TYR"]`, exclude list `[1]`: the stage
returns `ok []` instead of failing. -/
theorem c4_empty_check_witness :
    selectScan ["TYR"] titratable ≠ []
    ∧ selStage ["TYR"] titratable [] [1] = .ok (notresnumFilter (selectScan ["TYR"] titratable) [1]) :=
  ⟨by decide, c4_empty_check_order ["TYR"] titratable [1] (by decide)⟩

/-- Claim C5 (counterexample): with an explicit include list `[3, 3]` on the
Scenario-A topology the selector returns `[3, 3]` — duplicate residue
numbers, contradicting the no-duplicates invariant. -/
theorem c5_duplicates_cex :
    selectResnums ["ALA", "GLU", "AS4", "TYR"] titratable [3, 3] = .ok [3, 3]
    ∧ ¬ ([3, 3] : List Int).Nodup := by
  constructor
  · rfl
  · decide

/-- Claim C8 (confirmed, Scenario A): topology `["ALA","GLU","AS4","TYR"]`,
default criteria, igb 5: the preparation stage selects numbers `[3, 4]` with
occurrence names and deduplicated names `["AS4", "TYR"]` (and zero states),
and the emitted record contains `TRESCNT=2` and completes normally. -/
theorem c8_scenarioA :
    prep env8 cfg8 = .ok ([3, 4], ["AS4", "TYR"], ["AS4", "TYR"], [0, 0])
    ∧ " TRESCNT=2," ∈ (runCore env8 cfg8).stdout
    ∧ (runCore env8 cfg8).term = .normal := by
  refine ⟨rfl, by decide, rfl⟩

/-- Claim C9 (counterexample): the usage error "both -resname and -notresname
given" terminates via `sys.exit()` with exit status 0 — not a non-zero or
abnormal status. -/
theorem c9_exit_status_cex :
    (runFromArgv env8 ["cpinutil.py", "-resname", "TYR", "-notresname", "LYS"]).term = .earlyExit
    ∧ exitStatus (runFromArgv env8 ["cpinutil.py", "-resname", "TYR", "-notresname", "LYS"]).term
        = some 0 := by
  constructor
  · decide
  · decide

/-- Claim C9 (amended): validation failures print their error text to stderr
and stop early through `sys.exit()`, whose exit status is 0 (same as
success); the success path prints the informational `CPin created!` message
to stderr and also exits 0. -/
theorem c9_exit_amended :
    (runFromArgv env8 ["cpinutil.py", "-resname", "TYR", "-notresname", "LYS"]).stderr
      = ["Error: You cannot specify -notresname and -resname simultaneously!"]
    ∧ exitStatus (runFromArgv env8 ["cpinutil.py", "-resname", "TYR", "-notresname", "LYS"]).term
        = some 0
    ∧ (runFromArgv env8 ["cpinutil.py", "-p", "prmtop", "-igb", "5"]).term = .normal
    ∧ (runFromArgv env8 ["cpinutil.py", "-p", "prmtop", "-igb", "5"]).stderr = ["CPin created!"] := by
  refine ⟨by decide, by decide, by decide, by decide⟩

/-- Every number produced by the scan from position `i` exceeds `i`. -/
theorem scanFrom_bound (tr : String) :
    ∀ (l : List String) (i : Nat) (n : Int), n ∈ scanFrom i tr l → (i : Int) < n := by
  intro l
  induction l with
  | nil => intro i n h; simp [scanFrom] at h
  | cons nm rest ih =>
    intro i n h
    simp only [scanFrom, List.mem_append] at h
    rcases h with h | h
    · rcases (by split at h <;> simp_all : n = (i : Int) + 1) with rfl
      omega
    · have := ih (i + 1) n h
      push_cast at this
      omega

/-- The scan's output is strictly increasing. -/
theorem scanFrom_pairwise (tr : String) :
    ∀ (l : List String) (i : Nat), (scanFrom i tr l).Pairwise (· < ·) := by
  intro l
  induction l with
  | nil => intro i; simp [scanFrom]
  | cons nm rest ih =>
    intro i
    simp only [scanFrom]
    split
    · refine List.Pairwise.cons ?_ (ih (i + 1))
      intro n hn
      have := scanFrom_bound tr rest (i + 1) n hn
      push_cast at this
      omega
    · simpa using ih (i + 1)

/-- Every number produced by the scan from position `i` points (after the
`n - 1` shift) at a residue of the scanned suffix whose name passed the
substring test. -/
theorem scanFrom_mem (tr : String) :
    ∀ (l : List String) (i : Nat) (n : Int), n ∈ scanFrom i tr l →
      ∃ (j : Nat) (nm : String),
        l.get? j = some nm ∧ inContains nm tr = true ∧ n = (i : Int) + j + 1 := by
  intro l
  induction l with
  | nil => intro i n h; simp [scanFrom] at h
  | cons nm rest ih =>
    intro i n h
    simp only [scanFrom, List.mem_append] at h
    rcases h with h | h
    · have hsel : inContains nm tr = true := by
        by_contra hc
        simp only [Bool.not_eq_true] at hc
        simp [hc] at h
      have hn : n = (i : Int) + 1 := by simp [hsel] at h; omega
      exact ⟨0, nm, rfl, hsel, by omega⟩
    · obtain ⟨j, nm2, hget, hcon, hval⟩ := ih (i + 1) n h
      exact ⟨j + 1, nm2, by simpa using hget, hcon, by push_cast at hval ⊢; omega⟩

/-- A successful explicit-number selection returns exactly the supplied
numbers, in order, duplicates included. -/
theorem selectResnums_ok (residues : List String) (tr : String) :
    ∀ (nums out : List Int), selectResnums residues tr nums = .ok out → out = nums := by
  intro nums
  induction nums with
  | nil =>
    intro out h
    simp only [selectResnums] at h
    cases h
    rfl
  | cons n rest ih =>
    intro out h
    by_cases hbig : n > (residues.length : Int)
    · simp only [selectResnums, if_pos hbig] at h
      cases h
    · cases hidx : pyIdx residues (n - 1) with
      | none =>
        simp only [selectResnums, if_neg hbig, hidx] at h
        cases h
      | some nm =>
        by_cases hc : inContains nm tr = true
        · simp only [selectResnums, if_neg hbig, hidx, hc, if_true] at h
          cases hrec : selectResnums residues tr rest with
          | error e =>
            rw [hrec] at h
            simp [Except.map] at h
          | ok l =>
            rw [hrec] at h
            simp only [Except.map] at h
            cases h
            rw [ih l hrec]
        · simp only [selectResnums, if_neg hbig, hidx, hc, if_false] at h
          cases h

/-- Claim C5 (amended): a successful explicit include-number selection
returns the supplied numbers verbatim (duplicates preserved, NOT
deduplicated); the default topology scan does return duplicate-free numbers;
every scanned-in residue's name passes the membership test — but that test is
substring containment in the space-separated name string, not whole-name set
membership (e.g. "YS" passes against the default set without being one of its
names). -/
theorem c5_selector_amended (residues : List String) (tr : String) (nums out : List Int)
    (h : selectResnums residues tr nums = .ok out) :
    out = nums
    ∧ (selectScan residues tr).Nodup
    ∧ (∀ n ∈ selectScan residues tr,
        ∃ nm, pyIdx residues (n - 1) = some nm ∧ inContains nm tr = true)
    ∧ (inContains "YS" titratable = true ∧ "YS" ∉ splitWS titratable) := by
  refine ⟨selectResnums_ok residues tr nums out h, ?_, ?_, by decide, by decide⟩
  · exact ((scanFrom_pairwise tr residues 0).imp fun hlt => ne_of_lt hlt)
  · intro n hn
    obtain ⟨j, nm, hget, hcon, hval⟩ := scanFrom_mem tr residues 0 n hn
    refine ⟨nm, ?_, hcon⟩
    have hn1 : n - 1 = (j : Int) := by omega
    rw [hn1]
    simp only [pyIdx, Int.natCast_nonneg, if_true, Int.toNat_natCast]
    exact hget

/-- Claim C5 (witness): the amended theorem applied to the Scenario-A
topology with the duplicate include list `[3, 3]`. -/
theorem c5_selector_witness :
    selectResnums ["ALA", "GLU", "AS4", "TYR"] titratable [3, 3] = .ok [3, 3]
    ∧ (([3, 3] : List Int) = [3, 3]
       ∧ (selectScan ["ALA", "GLU", "AS4", "TYR"] titratable).Nodup
       ∧ (∀ n ∈ selectScan ["ALA", "GLU", "AS4", "TYR"] titratable,
           ∃ nm, pyIdx ["ALA", "GLU", "AS4", "TYR"] (n - 1) = some nm
             ∧ inContains nm titratable = true)
       ∧ (inContains "YS" titratable = true ∧ "YS" ∉ splitWS titratable)) :=
  ⟨rfl, c5_selector_amended ["ALA", "GLU", "AS4", "TYR"] titratable [3, 3] [3, 3] rfl⟩

/-- Claim C6 (confirmed): the STATEINF offset loop computes, for a residue
whose name `t` is the `k`-th entry of the deduplicated name list, exactly
`FIRST_CHARGE = sum of num_atoms(j) * num_states(j)` and `FIRST_STATE = sum
of num_states(j)` over the earlier deduplicated names `j < k` (with
`num_atoms` from each name's first state row and `num_states` the row count).
The result is a function of the name alone, so occurrences sharing a name
receive identical offsets. -/
theorem c6_offset_sums (t : String) :
    ∀ (k : Nat) (names : List String) (ds : List StateTable),
      names.length = ds.length → k < names.length →
      (∀ j, j < k → names.get? j ≠ some t) →
      names.get? k = some t →
      (∀ j, j ≤ k → ds.getD j [] ≠ []) →
      offsetLoop t names ds =
        some (((ds.take k).map (fun d => (((d.headD []).length : Int) - 2) * (d.length : Int))).sum,
              ((ds.take k).map (fun d => ((d.length : Int)))).sum,
              (((ds.getD k []).headD []).length : Int) - 2,
              (ds.getD k []).length) := by
  intro k
  induction k with
  | zero =>
    intro names ds hlen hk hne ht hrows
    cases names with
    | nil => simp at hk
    | cons n ns =>
      cases ds with
      | nil => simp at hlen
      | cons d rest =>
        have hnt : n = t := by simpa using ht
        subst hnt
        have hd : d ≠ [] := by simpa using hrows 0 (le_refl 0)
        obtain ⟨r, rs, rfl⟩ : ∃ r rs, d = r :: rs := by
          cases d with
          | nil => exact absurd rfl hd
          | cons r rs => exact ⟨r, rs, rfl⟩
        simp [offsetLoop]
  | succ k ih =>
    intro names ds hlen hk hne ht hrows
    cases names with
    | nil => simp at hk
    | cons n ns =>
      cases ds with
      | nil => simp at hlen
      | cons d rest =>
        have hne0 : t ≠ n := by
          intro hteq
          exact hne 0 (Nat.succ_pos k) (by simp [hteq])
        have hbeq : (t == n) = false := by
          simpa using hne0
        have hd : d ≠ [] := by simpa using hrows 0 (Nat.zero_le _)
        obtain ⟨r, rs, rfl⟩ : ∃ r rs, d = r :: rs := by
          cases d with
          | nil => exact absurd rfl hd
          | cons r rs => exact ⟨r, rs, rfl⟩
        have hrec := ih ns rest (by simpa using hlen) (by simpa using hk)
          (fun j hj => by simpa using hne (j + 1) (by omega))
          (by simpa using ht)
          (fun j hj => by simpa using hrows (j + 1) (by omega))
        simp only [offsetLoop, hbeq, Bool.false_eq_true, if_false, List.head?_cons, hrec,
          Option.map_some']
        simp only [List.take_succ_cons, List.map_cons, List.sum_cons, List.getD_cons_succ,
          Option.some.injEq, Prod.mk.injEq, List.headD_cons]
        exact ⟨add_comm _ _, add_comm _ _, trivial⟩

/-- Claim C6 (witness): instantiation at the Scenario-A tables with `t = TYR`
at deduplicated index 1: FIRST_CHARGE is 2 atoms x 2 states = 4 and
FIRST_STATE is 2. -/
theorem c6_offset_witness :
    (["AS4", "TYR"] : List String).length = ([dataAS4, dataTYR] : List StateTable).length
    ∧ 1 < (["AS4", "TYR"] : List String).length
    ∧ offsetLoop "TYR" ["AS4", "TYR"] [dataAS4, dataTYR] = some (4, 2, 2, 2) := by
  refine ⟨rfl, by decide, ?_⟩
  have h := c6_offset_sums "TYR" 1 ["AS4", "TYR"] [dataAS4, dataTYR] rfl (by decide)
    (fun j hj => by interval_cases j <;> decide) (by decide) (fun j hj => by interval_cases j <;> decide)
  rw [h]
  decide

/-- Unfolding lemma for one `addOn` step of a field emission. -/
theorem emitLines_cons (line t : String) (ts : List String) :
    emitLines line (t :: ts) =
      if line.length + t.length > 80 then line :: emitLines (" " ++ t) ts
      else emitLines (line ++ t) ts := by
  simp only [emitLines, addOn]
  split
  · simp
  · simp

/-- Structure of the emitted lines: the first line is the starting line
followed by a whole prefix of the tokens, and every later line is one space
followed by a whole contiguous nonempty run of tokens — so lines break only
between tokens and never inside one. -/
theorem emitLines_shape :
    ∀ (ts : List String) (line : String),
      ∃ j tl, emitLines line ts = (line ++ joinToks (ts.take j)) :: tl
        ∧ ∀ l ∈ tl, ∃ i k, l = " " ++ joinToks ((ts.drop i).take (k + 1)) := by
  intro ts
  induction ts with
  | nil =>
    intro line
    refine ⟨0, [], ?_, by simp⟩
    simp [emitLines, joinToks, String.append_empty]
  | cons t ts ih =>
    intro line
    rw [emitLines_cons]
    split
    case isTrue h =>
      obtain ⟨j, tl, heq, htl⟩ := ih (" " ++ t)
      refine ⟨0, emitLines (" " ++ t) ts, by simp [joinToks, String.append_empty], ?_⟩
      intro l hl
      rw [heq] at hl
      rcases List.mem_cons.mp hl with rfl | hl2
      · refine ⟨0, j, ?_⟩
        simp [joinToks, String.append_assoc]
      · obtain ⟨i, k, hlk⟩ := htl l hl2
        exact ⟨i + 1, k, by simpa using hlk⟩
    case isFalse h =>
      obtain ⟨j, tl, heq, htl⟩ := ih (line ++ t)
      refine ⟨j + 1, tl, ?_, ?_⟩
      · rw [heq]
        simp [joinToks, String.append_assoc]
      · intro l hl
        obtain ⟨i, k, hlk⟩ := htl l hl
        exact ⟨i + 1, k, by simpa using hlk⟩

/-- Length bound for the emitted lines: every line stays within 80 columns
unless it is a continuation consisting of one space and a single token of
length at least 80. -/
theorem emitLines_len (big : List String) :
    ∀ (ts : List String) (line : String),
      (∀ u ∈ ts, u ∈ big) →
      (line.length ≤ 80 ∨ ∃ u ∈ big, line = " " ++ u ∧ 80 ≤ u.length) →
      ∀ l ∈ emitLines line ts, l.length ≤ 80 ∨ ∃ u ∈ big, l = " " ++ u ∧ 80 ≤ u.length := by
  intro ts
  induction ts with
  | nil =>
    intro line hsub hline l hl
    simp only [emitLines, List.mem_singleton] at hl
    subst hl
    exact hline
  | cons t ts ih =>
    intro line hsub hline l hl
    rw [emitLines_cons] at hl
    split at hl
    case isTrue h =>
      rcases List.mem_cons.mp hl with rfl | hl2
      · exact hline
      · refine ih (" " ++ t) (fun u hu => hsub u (List.mem_cons_of_mem _ hu)) ?_ l hl2
        by_cases hlen : t.length ≤ 79
        · left
          rw [String.length_append]
          have h1 : (" " : String).length = 1 := rfl
          omega
        · right
          exact ⟨t, hsub t (List.mem_cons_self _ _), rfl, by omega⟩
    case isFalse h =>
      refine ih (line ++ t) (fun u hu => hsub u (List.mem_cons_of_mem _ hu)) ?_ l hl
      left
      rw [String.length_append]
      omega

/-- Claim C7 (counterexample): a single token of EXACTLY 80 characters (not
longer than 80) is emitted on a continuation line of 81 characters — an
emitted physical line exceeding the claimed 80-character bound that is not
covered by the longer-than-80-token exception. -/
theorem c7_token80_cex :
    (emitLines " X=" [t80, "a,"]).get? 1 = some (" " ++ t80)
    ∧ (" " ++ t80).length = 81 ∧ t80.length = 80 := by
  refine ⟨by decide, by decide, by decide⟩

/-- Claim C7 (amended): for a field starting line of at most 80 characters,
every emitted physical line is at most 80 characters long unless it consists
of a single leading space followed by one token of length AT LEAST 80 (so a
token of exactly 80 characters already produces an 81-character line); the
first line is the starting line followed by a whole prefix of the tokens and
every continuation line is one space followed by a whole contiguous nonempty
run of tokens, so lines break only between tokens, never inside one. -/
theorem c7_wrap_amended (header : String) (ts : List String) (hh : header.length ≤ 80) :
    (∀ l ∈ emitLines header ts, l.length ≤ 80 ∨ ∃ u ∈ ts, l = " " ++ u ∧ 80 ≤ u.length)
    ∧ ∃ j tl, emitLines header ts = (header ++ joinToks (ts.take j)) :: tl
        ∧ ∀ l ∈ tl, ∃ i k, l = " " ++ joinToks ((ts.drop i).take (k + 1)) :=
  ⟨emitLines_len ts ts header (fun _ hu => hu) (Or.inl hh), emitLines_shape ts header⟩

/-- Claim C7 (witness): instantiation at the CHRGDAT starting line with two
short tokens. -/
theorem c7_wrap_witness :
    (" CHRGDAT=" : String).length ≤ 80
    ∧ ((∀ l ∈ emitLines " CHRGDAT=" ["1.0,", "2.0,"],
          l.length ≤ 80 ∨ ∃ u ∈ ["1.0,", "2.0,"], l = " " ++ u ∧ 80 ≤ u.length)
       ∧ ∃ j tl, emitLines " CHRGDAT=" ["1.0,", "2.0,"] =
             (" CHRGDAT=" ++ joinToks ((["1.0,", "2.0,"] : List String).take j)) :: tl
           ∧ ∀ l ∈ tl, ∃ i k,
               l = " " ++ joinToks (((["1.0,", "2.0,"] : List String).drop i).take (k + 1))) :=
  ⟨by decide, c7_wrap_amended " CHRGDAT=" ["1.0,", "2.0,"] (by decide)⟩

/-- Everything after the argument loop ignores `system_name`, so two parse
states agreeing on the rest produce identical runs. -/
theorem runRest_congr (env : Env) (a b : ParseSt) (h : sameCore a b) :
    runRest env a = runRest env b := by
  obtain ⟨w, rfl⟩ := h
  rfl

/-- A word that is none of the recognised option tokens leaves the parse
state unchanged. -/
theorem stepTok_nonflag (argv : List String) (x : Nat) (v : String) (s : ParseSt)
    (hv : v ∉ flagToks) : stepTok argv x v s = .ok s := by
  simp only [flagToks, List.mem_cons, List.not_mem_nil, or_false, not_or] at hv
  obtain ⟨h1, h2, h3, h4, h5, h6, h7, h8, h9, h10, h11⟩ := hv
  simp [stepTok, h1, h2, h3, h4, h5, h6, h7, h8, h9, h10, h11]

/-- The inner value-collecting scan reads the same words on two command lines
that differ only at position `p`, because the scan can never reach `p`: any
scan that could must first pass position `p - 1`, which holds the option
token `-system` and stops it. -/
theorem collectGo_congr (a1 a2 : List String) (p : Nat)
    (hne : ∀ j, j ≠ p → a1.get? j = a2.get? j)
    (hsys1 : a1.get? (p - 1) = some "-system")
    (hp : 1 ≤ p) :
    ∀ fuel i, i ≠ p → collectGo a1 fuel i = collectGo a2 fuel i := by
  intro fuel
  induction fuel with
  | zero => intro i _; rfl
  | succ fuel ih =>
    intro i hi
    simp only [collectGo]
    rw [← hne i hi]
    cases hg : a1.get? i with
    | none => rfl
    | some t =>
      by_cases hd : startsDash t = true
      · simp [hd]
      · simp only [Bool.not_eq_true] at hd
        simp only [hd, Bool.false_eq_true, if_false]
        have hip : i + 1 ≠ p := by
          intro hipeq
          have hi1 : i = p - 1 := by omega
          rw [hi1] at hg
          have ht : t = "-system" := by
            have := hsys1.symm.trans hg
            injection this with h2
            exact h2.symm
          rw [ht] at hd
          exact absurd hd (by decide)
        rw [ih (i + 1) hip]

/-- One loop iteration on the same word relates the two runs: it reads only
the following word (equal on both lines unless the word is `-system`) and the
collected value pieces (equal on both lines for every collector), and writes
`system_name` only in the `-system` branch. -/
theorem stepTok_congr (a1 a2 : List String) (x : Nat) (tok : String) (s1 s2 : ParseSt)
    (hs : sameCore s1 s2)
    (hcol : collectPieces a1 (x + 1) = collectPieces a2 (x + 1) ∨ tok = "-system")
    (hget : a1.get? (x + 1) = a2.get? (x + 1) ∨
            (tok = "-system" ∧ ∃ w1 w2, a1.get? (x + 1) = some w1 ∧ a2.get? (x + 1) = some w2)) :
    RelE (stepTok a1 x tok s1) (stepTok a2 x tok s2) := by
  obtain ⟨w, rfl⟩ := hs
  by_cases h3 : tok = "-system"
  · subst h3
    simp only [stepTok]
    rw [if_neg (show ¬ (("-system" : String) = "-p") from by decide)]
    rw [if_neg (show ¬ (("-system" : String) = "-igb") from by decide)]
    simp only [if_true]
    rcases hget with hg | ⟨_, w1, w2, hw1, hw2⟩
    · rw [← hg]
      cases a1.get? (x + 1) with
      | none => simp [RelE]
      | some v => exact ⟨v, rfl⟩
    · rw [hw1, hw2]
      exact ⟨w2, rfl⟩
  · have hget2 : a1.get? (x + 1) = a2.get? (x + 1) := by
      rcases hget with hg | ⟨hcontra, _⟩
      · exact hg
      · exact absurd hcontra h3
    have hcol2 : collectPieces a1 (x + 1) = collectPieces a2 (x + 1) := by
      rcases hcol with hc | hcontra
      · exact hc
      · exact absurd hcontra h3
    simp only [stepTok, h3, if_false]
    by_cases h1 : tok = "-p"
    · simp only [h1, if_pos rfl]
      rw [← hget2]
      cases a1.get? (x + 1) with
      | none => simp [RelE]
      | some v => exact ⟨w, rfl⟩
    · simp only [h1, if_false]
      by_cases h2 : tok = "-igb"
      · simp only [h2, if_pos rfl]
        rw [← hget2]
        cases a1.get? (x + 1) with
        | none => simp [RelE]
        | some v => exact ⟨w, rfl⟩
      · simp only [h2, if_false]
        by_cases h4 : tok = "-minpKa"
        · simp only [h4, if_pos rfl]
          rw [← hget2]
          cases a1.get? (x + 1) with
          | none => simp [RelE]
          | some v => exact ⟨w, rfl⟩
        · simp only [h4, if_false]
          by_cases h5 : tok = "-maxpKa"
          · simp only [h5, if_pos rfl]
            rw [← hget2]
            cases a1.get? (x + 1) with
            | none => simp [RelE]
            | some v => exact ⟨w, rfl⟩
          · simp only [h5, if_false]
            by_cases h6 : tok = "--ignore-warnings"
            · simp only [h6, if_pos rfl]
              exact ⟨w, rfl⟩
            · simp only [h6, if_false]
              by_cases h7 : tok = "-resname"
              · simp only [h7, if_pos rfl]
                by_cases hspec : s1.nresname_spec
                · simp only [hspec, if_pos rfl]
                  simp [RelE]
                · simp only [Bool.not_eq_true] at hspec
                  simp only [hspec, Bool.false_eq_true, if_false, hcol2]
                  exact ⟨w, rfl⟩
              · simp only [h7, if_false]
                by_cases h8 : tok = "-notresname"
                · simp only [h8, if_pos rfl]
                  by_cases hspec : s1.resname_spec
                  · simp only [hspec, if_pos rfl]
                    simp [RelE]
                  · simp only [Bool.not_eq_true] at hspec
                    simp only [hspec, Bool.false_eq_true, if_false, hcol2]
                    exact ⟨w, rfl⟩
                · simp only [h8, if_false]
                  by_cases h9 : tok = "-resnum"
                  · simp only [h9, if_pos rfl]
                    by_cases hspec : s1.nresnum_spec
                    · simp only [hspec, if_pos rfl]
                      simp [RelE]
                    · simp only [Bool.not_eq_true] at hspec
                      simp only [hspec, Bool.false_eq_true, if_false, hcol2]
                      exact ⟨w, rfl⟩
                  · simp only [h9, if_false]
                    by_cases h10 : tok = "-notresnum"
                    · simp only [h10, if_pos rfl]
                      by_cases hspec : s1.resnum_spec
                      · simp only [hspec, if_pos rfl]
                        simp [RelE]
                      · simp only [Bool.not_eq_true] at hspec
                        simp only [hspec, Bool.false_eq_true, if_false, hcol2]
                        exact ⟨w, rfl⟩
                    · simp only [h10, if_false]
                      by_cases h11 : tok = "-states"
                      · simp only [h11, if_pos rfl, hcol2]
                        exact ⟨w, rfl⟩
                      · simp only [h11, if_false]
                        exact ⟨w, rfl⟩

/-- Lifting `RelE` through the loop's step-then-continue combinator. -/
theorem relE_step (f1 f2 : ParseSt → Except PErr ParseSt) (r1 r2 : Except PErr ParseSt)
    (hst : RelE r1 r2)
    (hrec : ∀ t1 t2, sameCore t1 t2 → RelE (f1 t1) (f2 t2)) :
    RelE (parseCont f1 r1) (parseCont f2 r2) := by
  cases r1 with
  | error e1 =>
    cases r2 with
    | error e2 => exact hst
    | ok t2 => exact absurd hst (by simp [RelE])
  | ok t1 =>
    cases r2 with
    | error e2 => exact absurd hst (by simp [RelE])
    | ok t2 => exact hrec t1 t2 hst

/-- The whole argument loop relates the two runs: identical failures, or
success states that differ at most in `system_name`. -/
theorem parseGo_congr (a1 a2 : List String) (p : Nat) (v1 v2 : String)
    (hlen : a1.length = a2.length) (hp : 2 ≤ p)
    (hne : ∀ j, j ≠ p → a1.get? j = a2.get? j)
    (hsys1 : a1.get? (p - 1) = some "-system")
    (hv1 : a1.get? p = some v1) (hv2 : a2.get? p = some v2)
    (hf1 : v1 ∉ flagToks) (hf2 : v2 ∉ flagToks) :
    ∀ fuel x s1 s2, sameCore s1 s2 →
      RelE (parseGo a1 fuel x s1) (parseGo a2 fuel x s2) := by
  intro fuel
  induction fuel with
  | zero =>
    intro x s1 s2 hs
    exact hs
  | succ fuel ih =>
    intro x s1 s2 hs
    simp only [parseGo]
    by_cases hx : x = p
    · subst hx
      rw [hv1, hv2]
      refine relE_step (parseGo a1 fuel (x + 1)) (parseGo a2 fuel (x + 1))
        (stepTok a1 x v1 s1) (stepTok a2 x v2 s2) ?_ (fun t1 t2 ht => ih (x + 1) t1 t2 ht)
      rw [stepTok_nonflag a1 x v1 s1 hf1, stepTok_nonflag a2 x v2 s2 hf2]
      exact hs
    · rw [← hne x hx]
      cases hg : a1.get? x with
      | none => exact hs
      | some tok =>
        have hst : RelE (stepTok a1 x tok s1) (stepTok a2 x tok s2) := by
          by_cases hx1 : x = p - 1
          · have htok : tok = "-system" := by
              rw [hx1] at hg
              have := hsys1.symm.trans hg
              injection this with h2
              exact h2.symm
            refine stepTok_congr a1 a2 x tok s1 s2 hs (Or.inr htok) ?_
            right
            refine ⟨htok, v1, v2, ?_, ?_⟩
            · rw [show x + 1 = p by omega]
              exact hv1
            · rw [show x + 1 = p by omega]
              exact hv2
          · have hxp : x + 1 ≠ p := by omega
            refine stepTok_congr a1 a2 x tok s1 s2 hs (Or.inl ?_) (Or.inl (hne (x + 1) hxp))
            simp only [collectPieces]
            rw [← hlen]
            exact collectGo_congr a1 a2 p hne hsys1 (by omega) a1.length (x + 1) hxp
        exact relE_step (parseGo a1 fuel (x + 1)) (parseGo a2 fuel (x + 1))
          (stepTok a1 x tok s1) (stepTok a2 x tok s2) hst
          (fun t1 t2 ht => ih (x + 1) t1 t2 ht)

/-- Claim C10 (amended): the system label emitted at the head of the RESNAME
field is the hard-coded constant (the parsed `-system` value is stored and
never read again), and the entire run output is identical for any two command
lines that differ only in the word following a `-system` flag, PROVIDED
neither value is itself one of the recognised option tokens — the argument
loop re-visits value words, so an option-shaped `-system` value changes the
parse (see the counterexample). -/
theorem c10_system_noninterference (env : Env) (a1 a2 : List String) (p : Nat) (v1 v2 : String)
    (hlen : a1.length = a2.length) (hp : 2 ≤ p)
    (hne : ∀ j, j ≠ p → a1.get? j = a2.get? j)
    (hsys1 : a1.get? (p - 1) = some "-system")
    (hv1 : a1.get? p = some v1) (hv2 : a2.get? p = some v2)
    (hf1 : v1 ∉ flagToks) (hf2 : v2 ∉ flagToks) :
    runFromArgv env a1 = runFromArgv env a2
    ∧ ∀ toks, ∃ j tl,
        emitLines " RESNAME=\x27System: Unknown\x27," toks =
          (" RESNAME=\x27System: Unknown\x27," ++ joinToks (toks.take j)) :: tl := by
  constructor
  · have hg1 : a1.getD 1 "" = a2.getD 1 "" := by
      simp only [List.getD_eq_getElem?_getD, ← List.get?_eq_getElem?, hne 1 (by omega)]
    simp only [runFromArgv]
    rw [← hlen, hg1]
    split
    · rfl
    · split
      · rfl
      · have hrel := parseGo_congr a1 a2 p v1 v2 hlen hp hne hsys1 hv1 hv2 hf1 hf2
          a1.length 1 initSt initSt ⟨initSt.system_name, rfl⟩
        cases h1 : parseGo a1 a1.length 1 initSt with
        | error e1 =>
          cases h2 : parseGo a2 a1.length 1 initSt with
          | error e2 =>
            rw [h1, h2] at hrel
            have he : e1 = e2 := hrel
            subst he
            rfl
          | ok t2 =>
            rw [h1, h2] at hrel
            exact absurd hrel (by simp [RelE])
        | ok t1 =>
          cases h2 : parseGo a2 a1.length 1 initSt with
          | error e2 =>
            rw [h1, h2] at hrel
            exact absurd hrel (by simp [RelE])
          | ok t2 =>
            rw [h1, h2] at hrel
            exact runRest_congr env t1 t2 hrel
  · intro toks
    obtain ⟨j, tl, heq, _⟩ := emitLines_shape toks " RESNAME=\x27System: Unknown\x27,"
    exact ⟨j, tl, heq⟩

/-- Claim C10 (counterexample): two command lines differing only in the value
handed to `-system` ("A" versus the option token "-resname") produce
different output records: the loop re-reads the value word, interprets
"-resname" as the option, and the run aborts with the mutual-exclusion error
when it later meets `-notresname`. -/
theorem c10_flag_value_cex :
    (runFromArgv env8
        ["cpinutil.py", "-p", "prmtop", "-igb", "5", "-system", "A", "-notresname", "LYS"]).stdout ≠
      (runFromArgv env8
        ["cpinutil.py", "-p", "prmtop", "-igb", "5", "-system", "-resname", "-notresname", "LYS"]).stdout := by
  decide

/-- Claim C10 (witness): the amended theorem applied to two concrete command
lines whose `-system` values "A" and "B" are not option tokens. -/
theorem c10_system_witness :
    ("A" : String) ∉ flagToks ∧ ("B" : String) ∉ flagToks
    ∧ runFromArgv env8 ["cpinutil.py", "-p", "prmtop", "-igb", "5", "-system", "A"]
        = runFromArgv env8 ["cpinutil.py", "-p", "prmtop", "-igb", "5", "-system", "B"] := by
  refine ⟨by decide, by decide, ?_⟩
  refine (c10_system_noninterference env8
    ["cpinutil.py", "-p", "prmtop", "-igb", "5", "-system", "A"]
    ["cpinutil.py", "-p", "prmtop", "-igb", "5", "-system", "B"] 6 "A" "B"
    rfl (by omega) ?_ rfl rfl rfl (by decide) (by decide)).1
  intro j hj
  rcases j with _ | _ | _ | _ | _ | _ | _ | j
  · rfl
  · rfl
  · rfl
  · rfl
  · rfl
  · rfl
  · exact absurd rfl hj
  · rfl
